import Mathlib

/-!
Shallow embedding of the ARP template Run Coordinator
(`src/arp_template_run_coordinator/coordinator.py` and the four outbound
gateway clients).  Python dictionaries become association lists with
first-match lookup and replace-or-append insertion; `uuid.uuid4().hex`
fresh-identifier generation is modelled by a monotone counter carried in
the coordinator state, with generated run ids ("run_<hex>") and generated
node-run ids ("node_run_<hex>") kept in their own constructors of the
identifier type so that distinct draws are distinct identifiers;
timestamps (`now()`) are passed in as an explicit natural-number clock;
`raise ArpServerError(...)` becomes an `Except`-style error value paired
with the store state at the moment of the raise.
-/

/-- JSON-like opaque payload values (inputs, outputs, contexts, details). -/
inductive JVal where
  | null : JVal
  | str : String → JVal
  | num : Int → JVal
  | obj : List (String × JVal) → JVal

/-- Identifiers: caller-supplied run-id strings, generated run ids of the
form "run_<hex>", and generated node-run ids of the form "node_run_<hex>".
The hex suffix of `uuid.uuid4().hex` is modelled by the draw number. -/
inductive Ident where
  | user : String → Ident
  | runGen : Nat → Ident
  | nodeGen : Nat → Ident
deriving DecidableEq, Repr

/-- The string rendering of an identifier, for error messages. -/
def idStr : Ident → String
  | .user s => s
  | .runGen n => "run_" ++ Nat.repr n
  | .nodeGen n => "node_run_" ++ Nat.repr n

/-- The `RunState` enum from arp_standard_model as used by the coordinator. -/
inductive RunState where
  | running | succeeded | failed | canceled
deriving DecidableEq, Repr

/-- The `NodeRunState` enum from arp_standard_model as the coordinator uses it. -/
inductive NodeRunState where
  | queued | running | succeeded | failed | canceled
deriving DecidableEq, Repr

/-- Membership in `{RunState.succeeded, RunState.failed, RunState.canceled}`,
the set literal tested by `cancel_run`. -/
def RunState.isTerminal : RunState → Bool
  | .succeeded => true
  | .failed => true
  | .canceled => true
  | .running => false

/-- A `NodeTypeRef`: id plus version. -/
structure NodeTypeRef where
  id : String
  version : String
deriving DecidableEq, Repr

/-- Extensions payloads: pydantic models dumped to keyed fields. -/
abbrev Extensions := List (String × JVal)

/-- The `Run` model with the fields the coordinator constructs. -/
structure Run where
  run_id : Ident
  state : RunState
  root_node_run_id : Ident
  run_context : Option JVal
  started_at : Nat
  ended_at : Option Nat
  extensions : Option Extensions

/-- The `NodeRun` model with the fields the coordinator constructs. -/
structure NodeRun where
  node_run_id : Ident
  run_id : Ident
  parent_node_run_id : Option Ident
  node_type_ref : NodeTypeRef
  kind : Option String
  state : NodeRunState
  created_at : Nat
  started_at : Option Nat
  ended_at : Option Nat
  inputs : Option JVal
  outputs : Option JVal
  output_artifacts : Option JVal
  executor_binding : Option JVal
  evaluation_result : Option JVal
  recovery_actions : Option JVal
  extensions : Option Extensions

/-- The `ArpServerError` shape raised by the coordinator and the gateways. -/
structure ArpServerError where
  code : String
  message : String
  status_code : Nat
  details : Option JVal

/-- Python-dict lookup on an association list: first matching key wins. -/
def dictGet {α : Type} (m : List (Ident × α)) (k : Ident) : Option α :=
  match m with
  | [] => none
  | (k', v) :: rest => if k = k' then some v else dictGet rest k

/-- Python-dict assignment `m[k] = v`: replace in place, else append. -/
def dictSet {α : Type} (m : List (Ident × α)) (k : Ident) (v : α) :
    List (Ident × α) :=
  match m with
  | [] => [(k, v)]
  | (k', v') :: rest =>
    if k = k' then (k, v) :: rest else (k', v') :: dictSet rest k v

/-- The in-memory state of `RunCoordinator`: the `_runs` dict, the
`_node_runs` dict, and the fresh-identifier draw counter modelling the
stream of `uuid.uuid4()` values. -/
structure CoordState where
  runs : List (Ident × Run)
  nodeRuns : List (Ident × NodeRun)
  nextId : Nat

/-- The state after `RunCoordinator.__init__`: both stores empty. -/
def initState : CoordState := { runs := [], nodeRuns := [], nextId := 0 }

/-- Body of a `start_run` request.  `run_id` is the optional caller-supplied
id; `some (Ident.user "")` embeds a present-but-empty string, which Python
`or` treats as falsy. -/
structure RunStartBody where
  run_id : Option Ident
  root_node_type_ref : NodeTypeRef
  input : Option JVal
  run_context : Option JVal
  extensions : Option Extensions

/-- Embeds `request.body.run_id or ...` id selection: Python `or` yields the freshly
generated id exactly when `run_id` is None or the empty string. -/
def effectiveRunId (req : Option Ident) (n : Nat) : Ident :=
  match req with
  | none => Ident.runGen n
  | some i => if i = Ident.user "" then Ident.runGen n else i

def runNotFoundErr (rid : Ident) : ArpServerError :=
  { code := "run_not_found", message := "Run " ++ idStr rid ++ " not found",
    status_code := 404, details := none }

def runExistsErr (rid : Ident) : ArpServerError :=
  { code := "run_already_exists",
    message := "Run " ++ idStr rid ++ " already exists",
    status_code := 409, details := none }

def parentNotFoundErr (pid : Ident) : ArpServerError :=
  { code := "parent_node_run_not_found",
    message := "Parent NodeRun " ++ idStr pid ++ " not found",
    status_code := 404, details := none }

def parentMismatchErr : ArpServerError :=
  { code := "parent_node_run_mismatch",
    message := "Parent NodeRun does not belong to the requested run",
    status_code := 409, details := none }

def nodeRunNotFoundErr (nid : Ident) : ArpServerError :=
  { code := "node_run_not_found",
    message := "NodeRun " ++ idStr nid ++ " not found",
    status_code := 404, details := none }

/-- Embeds `RunCoordinator.start_run`.  The two uuid draws of a call (run id and
root node-run id) are the counter values `st.nextId` and `st.nextId + 1`. -/
def start_run (body : RunStartBody) (t : Nat) (st : CoordState) :
    Except ArpServerError Run × CoordState :=
  let run_id := effectiveRunId body.run_id st.nextId
  match dictGet st.runs run_id with
  | some _ => (.error (runExistsErr run_id), st)
  | none =>
    let root_node_run_id := Ident.nodeGen (st.nextId + 1)
    let run : Run :=
      { run_id := run_id, state := .running,
        root_node_run_id := root_node_run_id,
        run_context := body.run_context, started_at := t, ended_at := none,
        extensions := body.extensions }
    let root : NodeRun :=
      { node_run_id := root_node_run_id, run_id := run_id,
        parent_node_run_id := none,
        node_type_ref := body.root_node_type_ref, kind := none,
        state := .queued, created_at := t, started_at := none,
        ended_at := none, inputs := body.input, outputs := none,
        output_artifacts := none, executor_binding := none,
        evaluation_result := none, recovery_actions := none,
        extensions := body.extensions }
    (.ok run,
      { runs := dictSet st.runs run_id run,
        nodeRuns := dictSet st.nodeRuns root_node_run_id root,
        nextId := st.nextId + 2 })

/-- One entry of `request.body.node_runs`. -/
structure NodeRunSpec where
  node_type_ref : NodeTypeRef
  inputs : Option JVal
  extensions : Option Extensions

/-- Body of a `create_node_runs` request. -/
structure NodeRunsCreateBody where
  run_id : Ident
  parent_node_run_id : Ident
  node_runs : List NodeRunSpec
  extensions : Option Extensions

/-- The `NodeRunsCreateResponse` shape. -/
structure NodeRunsCreateResponse where
  node_runs : List NodeRun
  extensions : Option Extensions

/-- The NodeRun built for one spec inside the creation loop, with `n` the
uuid draw number of its generated id. -/
def mkChildNodeRun (rid pid : Ident) (sp : NodeRunSpec) (t n : Nat) :
    NodeRun :=
  { node_run_id := Ident.nodeGen n, run_id := rid,
    parent_node_run_id := some pid, node_type_ref := sp.node_type_ref,
    kind := none, state := .queued, created_at := t, started_at := none,
    ended_at := none, inputs := sp.inputs, outputs := none,
    output_artifacts := none, executor_binding := none,
    evaluation_result := none, recovery_actions := none,
    extensions := sp.extensions }

/-- The `for spec in request.body.node_runs` loop: generate an id, build
the NodeRun, store it, append it to the created list. -/
def createBatch (rid pid : Ident) (specs : List NodeRunSpec) (t : Nat)
    (store : List (Ident × NodeRun)) (n : Nat) :
    List NodeRun × List (Ident × NodeRun) × Nat :=
  match specs with
  | [] => ([], store, n)
  | sp :: rest =>
    let nr := mkChildNodeRun rid pid sp t n
    let out :=
      createBatch rid pid rest t (dictSet store (Ident.nodeGen n) nr) (n + 1)
    (nr :: out.1, out.2.1, out.2.2)

/-- Embeds `RunCoordinator.create_node_runs`: the three validations in source
order, then the creation loop. -/
def create_node_runs (body : NodeRunsCreateBody) (t : Nat) (st : CoordState) :
    Except ArpServerError NodeRunsCreateResponse × CoordState :=
  match dictGet st.runs body.run_id with
  | none => (.error (runNotFoundErr body.run_id), st)
  | some _ =>
    match dictGet st.nodeRuns body.parent_node_run_id with
    | none => (.error (parentNotFoundErr body.parent_node_run_id), st)
    | some parent =>
      if parent.run_id ≠ body.run_id then
        (.error parentMismatchErr, st)
      else
        let out := createBatch body.run_id body.parent_node_run_id
          body.node_runs t st.nodeRuns st.nextId
        (.ok { node_runs := out.1, extensions := body.extensions },
          { runs := st.runs, nodeRuns := out.2.1, nextId := out.2.2 })

/-- Embeds `RunCoordinator.get_node_run` (read-only). -/
def get_node_run (nid : Ident) (st : CoordState) :
    Except ArpServerError NodeRun :=
  match dictGet st.nodeRuns nid with
  | none => .error (nodeRunNotFoundErr nid)
  | some nr => .ok nr

/-- Embeds `RunCoordinator.get_run` (read-only). -/
def get_run (rid : Ident) (st : CoordState) : Except ArpServerError Run :=
  match dictGet st.runs rid with
  | none => .error (runNotFoundErr rid)
  | some r => .ok r

/-- Embeds `RunCoordinator.report_node_run_evaluation`: a `model_copy` updating only
`evaluation_result`, stored back under `node_run.node_run_id`. -/
def report_node_run_evaluation (nid : Ident) (er : Option JVal)
    (st : CoordState) : Except ArpServerError Unit × CoordState :=
  match dictGet st.nodeRuns nid with
  | none => (.error (nodeRunNotFoundErr nid), st)
  | some nr =>
    let updated : NodeRun := { nr with evaluation_result := er }
    (.ok (), { st with nodeRuns := dictSet st.nodeRuns nr.node_run_id updated })

/-- Modelled from the spec: the Error payload of a completion request (the
concrete Error model lives in arp_standard_model, outside this repository);
the spec requires it to carry the error code and message, with optional
details. -/
structure CompletionError where
  code : String
  message : String
  details : Option JVal

/-- Modelled from the spec: `error.model_dump()`, the keyed dump of the
Error payload stored under the reserved extensions key. -/
def errDump (e : CompletionError) : JVal :=
  .obj [("code", .str e.code), ("message", .str e.message),
    ("details", e.details.getD .null)]

/-- Body of a `complete_node_run` request (`NodeRunCompleteRequest`). -/
structure NodeRunCompleteBody where
  state : NodeRunState
  outputs : Option JVal
  output_artifacts : Option JVal
  error : Option CompletionError

/-- Python dict assignment `payload[k] = v` on dumped extension fields:
replace in place, else append. -/
def setField (fields : Extensions) (k : String) (v : JVal) : Extensions :=
  match fields with
  | [] => [(k, v)]
  | (k', v') :: rest =>
    if k' = k then (k, v) :: rest else (k', v') :: setField rest k v

/-- Python dict lookup on dumped extension fields. -/
def lookupField (fields : Extensions) (k : String) : Option JVal :=
  match fields with
  | [] => none
  | (k', v) :: rest => if k = k' then some v else lookupField rest k

/-- The extensions update of `complete_node_run`: unchanged when no error;
otherwise the dump of the old extensions (or `{}`) with the reserved key
`completion_error` assigned to the dumped error. -/
def mergeCompletionError (ext : Option Extensions) :
    Option CompletionError → Option Extensions
  | none => ext
  | some e =>
    let payload := match ext with | none => [] | some fields => fields
    some (setField payload "completion_error" (errDump e))

/-- Embeds `RunCoordinator.complete_node_run`. -/
def complete_node_run (nid : Ident) (body : NodeRunCompleteBody) (t : Nat)
    (st : CoordState) : Except ArpServerError Unit × CoordState :=
  match dictGet st.nodeRuns nid with
  | none => (.error (nodeRunNotFoundErr nid), st)
  | some nr =>
    let updated : NodeRun :=
      { nr with
          state := body.state, outputs := body.outputs,
          output_artifacts := body.output_artifacts, ended_at := some t,
          extensions := mergeCompletionError nr.extensions body.error }
    (.ok (), { st with nodeRuns := dictSet st.nodeRuns nr.node_run_id updated })

/-- Embeds `RunCoordinator.cancel_run`: fetch (propagating not-found), no-op on the
terminal set, otherwise transition to canceled, stamp `ended_at`, persist. -/
def cancel_run (rid : Ident) (t : Nat) (st : CoordState) :
    Except ArpServerError Run × CoordState :=
  match dictGet st.runs rid with
  | none => (.error (runNotFoundErr rid), st)
  | some run =>
    if run.state.isTerminal then
      (.ok run, st)
    else
      let updated := { run with state := RunState.canceled, ended_at := some t }
      (.ok updated, { st with runs := dictSet st.runs run.run_id updated })

/-- One state-mutating coordinator operation together with its arguments
(the read-only operations `get_run`, `get_node_run`, `health`, `version`
and the two event-stream stubs never touch the stores). -/
inductive CoordOp where
  | startRun (body : RunStartBody) (t : Nat)
  | createNodeRuns (body : NodeRunsCreateBody) (t : Nat)
  | reportEval (node_run_id : Ident) (er : Option JVal)
  | complete (node_run_id : Ident) (body : NodeRunCompleteBody) (t : Nat)
  | cancel (run_id : Ident) (t : Nat)

/-- The store state after one coordinator operation. -/
def applyOp (op : CoordOp) (st : CoordState) : CoordState :=
  match op with
  | .startRun body t => (start_run body t st).2
  | .createNodeRuns body t => (create_node_runs body t st).2
  | .reportEval nid er => (report_node_run_evaluation nid er st).2
  | .complete nid body t => (complete_node_run nid body t st).2
  | .cancel rid t => (cancel_run rid t st).2

/-- Store hygiene: every `_runs` entry is stored under its own `run_id` and
every `_node_runs` entry under its own `node_run_id`; true of every state
the coordinator can reach. -/
def KeysOk (st : CoordState) : Prop :=
  (∀ e ∈ st.runs, e.2.run_id = e.1) ∧
  (∀ e ∈ st.nodeRuns, e.2.node_run_id = e.1)

instance (st : CoordState) : Decidable (KeysOk st) :=
  inferInstanceAs (Decidable (_ ∧ _))

/-- Fresh-draw soundness, the model of uuid freshness: no identifier whose
draw number is at or beyond the counter is already a key of either store;
true of every state the coordinator can reach. -/
def FreshOk (st : CoordState) : Prop :=
  ∀ m, st.nextId ≤ m →
    dictGet st.runs (Ident.runGen m) = none ∧
    dictGet st.nodeRuns (Ident.nodeGen m) = none

/-- The uuid-unguessability assumption for one operation: a caller-supplied
run id does not coincide with a uuid draw the coordinator has not made yet
(only `start_run` takes a caller-supplied id that is ever used as a new
store key). -/
def OpFresh (op : CoordOp) (st : CoordState) : Prop :=
  match op with
  | .startRun body _ =>
    ∀ i, body.run_id = some i → ∀ m, st.nextId ≤ m → i ≠ Ident.runGen m
  | _ => True

/-- Outcome of invoking one downstream operation from a gateway worker
thread: a value, a structured `ArpApiError` (code, message, optional
status, details), or any other exception with its string rendering. -/
inductive DownstreamOutcome (α : Type) where
  | ok (value : α)
  | apiError (code : String) (message : String) (status_code : Option Nat)
      (details : Option JVal)
  | failure (description : String)

/-- The three per-service constants distinguishing the four copies of the
gateway `_call` helper, plus the configured base URL. -/
structure GatewayTarget where
  unavailable_code : String
  unavailable_message : String
  url_key : String
  base_url : String

/-- Python `exc.status_code or 502`: the default is taken when the
downstream supplied no status (or the falsy status 0). -/
def statusOr (v : Option Nat) (d : Nat) : Nat :=
  match v with
  | none => d
  | some s => if s = 0 then d else s

/-- The shared `_call` pattern of the Atomic Executor, Composite Executor,
Selection and PDP gateway clients. -/
def gatewayCall {α : Type} (g : GatewayTarget) (outcome : DownstreamOutcome α) :
    Except ArpServerError α :=
  match outcome with
  | .ok v => .ok v
  | .apiError code message status details =>
    .error { code := code, message := message,
             status_code := statusOr status 502, details := details }
  | .failure desc =>
    .error { code := g.unavailable_code, message := g.unavailable_message,
             status_code := 502,
             details := some (.obj [(g.url_key, .str g.base_url),
               ("error", .str desc)]) }

/-- The target constants of `AtomicExecutorGatewayClient._call`. -/
def atomicExecutorTarget (base_url : String) : GatewayTarget :=
  { unavailable_code := "atomic_executor_unavailable",
    unavailable_message := "Atomic Executor request failed",
    url_key := "atomic_executor_url", base_url := base_url }

/-- The target constants of `CompositeExecutorGatewayClient._call`. -/
def compositeExecutorTarget (base_url : String) : GatewayTarget :=
  { unavailable_code := "composite_executor_unavailable",
    unavailable_message := "Composite Executor request failed",
    url_key := "composite_executor_url", base_url := base_url }

/-- The target constants of `SelectionGatewayClient._call`. -/
def selectionTarget (base_url : String) : GatewayTarget :=
  { unavailable_code := "selection_service_unavailable",
    unavailable_message := "Selection Service request failed",
    url_key := "selection_service_url", base_url := base_url }

/-- The target constants of `PdpGatewayClient._call`. -/
def pdpTarget (base_url : String) : GatewayTarget :=
  { unavailable_code := "pdp_unavailable",
    unavailable_message := "PDP request failed",
    url_key := "pdp_url", base_url := base_url }

/-- Concrete node type of the spec scenario. -/
def echoRef : NodeTypeRef := { id := "composite.echo", version := "0.1.0" }

/-- Concrete atomic node type of the spec scenario. -/
def atomRef : NodeTypeRef := { id := "atomic.echo", version := "0.1.0" }

/-- A concrete `start_run` body mirroring the spec scenario. -/
def sampleStartBody : RunStartBody :=
  { run_id := some (Ident.user "run_1"), root_node_type_ref := echoRef,
    input := some (.obj [("prompt", .str "test")]), run_context := none,
    extensions := none }

/-- The Run created by `start_run sampleStartBody 5 initState`. -/
def sampleRun : Run :=
  { run_id := Ident.user "run_1", state := .running,
    root_node_run_id := Ident.nodeGen 1, run_context := none,
    started_at := 5, ended_at := none, extensions := none }

/-- The root NodeRun created by `start_run sampleStartBody 5 initState`. -/
def sampleRoot : NodeRun :=
  { node_run_id := Ident.nodeGen 1, run_id := Ident.user "run_1",
    parent_node_run_id := none, node_type_ref := echoRef, kind := none,
    state := .queued, created_at := 5, started_at := none, ended_at := none,
    inputs := some (.obj [("prompt", .str "test")]), outputs := none,
    output_artifacts := none, executor_binding := none,
    evaluation_result := none, recovery_actions := none, extensions := none }

/-- The store state after `start_run sampleStartBody 5 initState`. -/
def sampleState : CoordState :=
  { runs := [(Ident.user "run_1", sampleRun)],
    nodeRuns := [(Ident.nodeGen 1, sampleRoot)], nextId := 2 }

/-- A concrete `create_node_runs` body mirroring the spec scenario. -/
def sampleCreateBody : NodeRunsCreateBody :=
  { run_id := Ident.user "run_1", parent_node_run_id := Ident.nodeGen 1,
    node_runs := [{ node_type_ref := atomRef,
                    inputs := some (.obj [("ping", .str "pong")]),
                    extensions := none }],
    extensions := none }

/-- A Run already in a terminal state. -/
def doneRun : Run :=
  { run_id := Ident.user "done", state := .succeeded,
    root_node_run_id := Ident.nodeGen 0, run_context := none,
    started_at := 0, ended_at := some 3, extensions := none }

/-- A store holding only the terminal Run `doneRun`. -/
def doneState : CoordState :=
  { runs := [(Ident.user "done", doneRun)], nodeRuns := [], nextId := 1 }

/-- A NodeRun carrying a pre-existing extension field. -/
def extNode : NodeRun :=
  { node_run_id := Ident.nodeGen 0, run_id := Ident.user "run_1",
    parent_node_run_id := none, node_type_ref := atomRef, kind := none,
    state := .queued, created_at := 0, started_at := none, ended_at := none,
    inputs := none, outputs := none, output_artifacts := none,
    executor_binding := none, evaluation_result := none,
    recovery_actions := none, extensions := some [("trace", .str "abc")] }

/-- A store holding only `extNode`. -/
def extNodeState : CoordState :=
  { runs := [], nodeRuns := [(Ident.nodeGen 0, extNode)], nextId := 1 }

/-- The concrete completion error of the spec scenario. -/
def boomError : CompletionError :=
  { code := "boom", message := "failure", details := none }

theorem dictGet_dictSet_self {α : Type} (m : List (Ident × α)) (k : Ident)
    (v : α) : dictGet (dictSet m k v) k = some v := by
  induction m with
  | nil => simp [dictGet, dictSet]
  | cons hd tl ih =>
    obtain ⟨k', v'⟩ := hd
    by_cases h : k = k' <;> simp [dictGet, dictSet, h, ih]

theorem dictGet_dictSet_ne {α : Type} (m : List (Ident × α)) (k k' : Ident)
    (v : α) (h : k' ≠ k) : dictGet (dictSet m k v) k' = dictGet m k' := by
  induction m with
  | nil => simp [dictGet, dictSet, h]
  | cons hd tl ih =>
    obtain ⟨a, b⟩ := hd
    by_cases hk : k = a
    · subst hk
      simp [dictGet, dictSet, h]
    · by_cases hk' : k' = a <;> simp [dictGet, dictSet, hk, hk', ih]

theorem dictGet_mem {α : Type} {m : List (Ident × α)} {k : Ident} {v : α}
    (h : dictGet m k = some v) : (k, v) ∈ m := by
  induction m with
  | nil => simp [dictGet] at h
  | cons hd tl ih =>
    obtain ⟨a, b⟩ := hd
    by_cases hk : k = a
    · subst hk
      simp [dictGet] at h
      simp [h]
    · simp [dictGet, hk] at h
      exact List.mem_cons_of_mem _ (ih h)

theorem dictSet_forall {α : Type} {p : Ident × α → Prop}
    {m : List (Ident × α)} (hm : ∀ e ∈ m, p e) {k : Ident} {v : α}
    (hv : p (k, v)) : ∀ e ∈ dictSet m k v, p e := by
  induction m with
  | nil =>
    intro e he
    simp [dictSet] at he
    subst he
    exact hv
  | cons hd tl ih =>
    intro e he
    obtain ⟨a, b⟩ := hd
    by_cases hk : k = a
    · subst hk
      simp [dictSet] at he
      rcases he with he | he
      · subst he; exact hv
      · exact hm _ (List.mem_cons_of_mem _ he)
    · simp [dictSet, hk] at he
      rcases he with he | he
      · subst he; exact hm _ (List.mem_cons_self _ _)
      · exact ih (fun e he => hm _ (List.mem_cons_of_mem _ he)) _ he

theorem effectiveRunId_ne_emptyUser (req : Option Ident) (n : Nat) :
    effectiveRunId req n ≠ Ident.user "" := by
  cases req with
  | none => simp [effectiveRunId]
  | some i =>
    by_cases h : i = Ident.user "" <;> simp [effectiveRunId, h]

theorem effectiveRunId_some_of_ne (i : Ident) (n : Nat)
    (h : i ≠ Ident.user "") : effectiveRunId (some i) n = i := by
  simp [effectiveRunId, h]

theorem lookupField_setField_self (f : Extensions) (k : String) (v : JVal) :
    lookupField (setField f k v) k = some v := by
  induction f with
  | nil => simp [setField, lookupField]
  | cons hd tl ih =>
    obtain ⟨a, b⟩ := hd
    by_cases h : a = k
    · simp [setField, lookupField, h]
    · have h' : ¬k = a := fun hh => h hh.symm
      simp [setField, lookupField, h, h', ih]

theorem lookupField_setField_ne (f : Extensions) (k k' : String) (v : JVal)
    (h : k' ≠ k) : lookupField (setField f k v) k' = lookupField f k' := by
  induction f with
  | nil => simp [setField, lookupField, h]
  | cons hd tl ih =>
    obtain ⟨a, b⟩ := hd
    by_cases ha : a = k
    · subst ha
      simp [setField, lookupField, h]
    · by_cases hk' : k' = a <;> simp [setField, lookupField, ha, hk', ih]

theorem createBatch_length (rid pid : Ident) (specs : List NodeRunSpec)
    (t : Nat) (store : List (Ident × NodeRun)) (n : Nat) :
    (createBatch rid pid specs t store n).1.length = specs.length := by
  induction specs generalizing store n with
  | nil => rfl
  | cons sp rest ih => simp [createBatch, ih]

theorem createBatch_counter (rid pid : Ident) (specs : List NodeRunSpec)
    (t : Nat) (store : List (Ident × NodeRun)) (n : Nat) :
    (createBatch rid pid specs t store n).2.2 = n + specs.length := by
  induction specs generalizing store n with
  | nil => simp [createBatch]
  | cons sp rest ih =>
    simp [createBatch, ih]
    omega

theorem createBatch_get? (rid pid : Ident) (specs : List NodeRunSpec)
    (t : Nat) (store : List (Ident × NodeRun)) (n i : Nat) :
    (createBatch rid pid specs t store n).1.get? i =
      (specs.get? i).map (fun sp => mkChildNodeRun rid pid sp t (n + i)) := by
  induction specs generalizing store n i with
  | nil => simp [createBatch]
  | cons sp rest ih =>
    cases i with
    | zero => simp [createBatch]
    | succ j =>
      have harith : n + (j + 1) = n + 1 + j := by omega
      simp only [createBatch, List.get?_cons_succ, harith]
      exact ih _ _ _

theorem createBatch_store_old (rid pid : Ident) (specs : List NodeRunSpec)
    (t : Nat) (store : List (Ident × NodeRun)) (n : Nat) (k : Ident)
    (hk : ∀ j, n ≤ j → j < n + specs.length → k ≠ Ident.nodeGen j) :
    dictGet (createBatch rid pid specs t store n).2.1 k = dictGet store k := by
  induction specs generalizing store n with
  | nil => rfl
  | cons sp rest ih =>
    have h0 : k ≠ Ident.nodeGen n := hk n (Nat.le_refl n) (by simp)
    simp only [createBatch]
    rw [ih _ _ (fun j hj1 hj2 => hk j (by omega) (by simp; omega))]
    exact dictGet_dictSet_ne _ _ _ _ h0

theorem createBatch_store_new (rid pid : Ident) (specs : List NodeRunSpec)
    (t : Nat) (store : List (Ident × NodeRun)) (n i : Nat)
    (hi : i < specs.length) :
    dictGet (createBatch rid pid specs t store n).2.1 (Ident.nodeGen (n + i)) =
      (specs.get? i).map (fun sp => mkChildNodeRun rid pid sp t (n + i)) := by
  induction specs generalizing store n i with
  | nil => simp at hi
  | cons sp rest ih =>
    cases i with
    | zero =>
      have hpres := createBatch_store_old rid pid rest t
        (dictSet store (Ident.nodeGen n) (mkChildNodeRun rid pid sp t n))
        (n + 1) (Ident.nodeGen n)
        (by
          intro j hj1 hj2 he
          cases he
          omega)
      simp only [createBatch, Nat.add_zero]
      rw [hpres, dictGet_dictSet_self]
      simp
    | succ j =>
      have harith : n + (j + 1) = n + 1 + j := by omega
      have hj : j < rest.length := by simpa using hi
      simp only [createBatch, List.get?_cons_succ, harith]
      exact ih _ _ _ hj

theorem createBatch_keys (rid pid : Ident) (specs : List NodeRunSpec)
    (t : Nat) (store : List (Ident × NodeRun)) (n : Nat)
    (hs : ∀ e ∈ store, e.2.node_run_id = e.1) :
    ∀ e ∈ (createBatch rid pid specs t store n).2.1,
      e.2.node_run_id = e.1 := by
  induction specs generalizing store n with
  | nil => exact hs
  | cons sp rest ih =>
    simp only [createBatch]
    exact ih _ _ (dictSet_forall hs rfl)

theorem keysOk_init : KeysOk initState := by
  constructor <;> simp [initState]

theorem freshOk_init : FreshOk initState := by
  intro m hm
  constructor <;> rfl

theorem keysOk_applyOp (op : CoordOp) (st : CoordState) (h : KeysOk st) :
    KeysOk (applyOp op st) := by
  obtain ⟨hr, hn⟩ := h
  cases op with
  | startRun body t =>
    simp only [applyOp, start_run]
    split
    · exact ⟨hr, hn⟩
    · exact ⟨dictSet_forall hr rfl, dictSet_forall hn rfl⟩
  | createNodeRuns body t =>
    simp only [applyOp, create_node_runs]
    split
    · exact ⟨hr, hn⟩
    · split
      · exact ⟨hr, hn⟩
      · split
        · exact ⟨hr, hn⟩
        · exact ⟨hr, createBatch_keys _ _ _ _ _ _ hn⟩
  | reportEval nid er =>
    simp only [applyOp, report_node_run_evaluation]
    split
    · exact ⟨hr, hn⟩
    · exact ⟨hr, dictSet_forall hn rfl⟩
  | complete nid body t =>
    simp only [applyOp, complete_node_run]
    split
    · exact ⟨hr, hn⟩
    · exact ⟨hr, dictSet_forall hn rfl⟩
  | cancel rid t =>
    simp only [applyOp, cancel_run]
    split
    · exact ⟨hr, hn⟩
    · split
      · exact ⟨hr, hn⟩
      · exact ⟨dictSet_forall hr rfl, hn⟩

theorem freshOk_applyOp (op : CoordOp) (st : CoordState) (hk : KeysOk st)
    (hf : FreshOk st) (hop : OpFresh op st) : FreshOk (applyOp op st) := by
  obtain ⟨hkr, hkn⟩ := hk
  cases op with
  | startRun body t =>
    simp only [applyOp, start_run]
    split
    · exact hf
    · intro m hm
      simp only at hm
      have hrid : effectiveRunId body.run_id st.nextId ≠ Ident.runGen m := by
        cases hb : body.run_id with
        | none =>
          simp only [effectiveRunId]
          intro he
          cases he
          omega
        | some i =>
          by_cases hi : i = Ident.user ""
          · simp only [effectiveRunId, hi, if_pos rfl]
            intro he
            cases he
            omega
          · rw [effectiveRunId_some_of_ne i _ hi]
            exact hop i hb m (by omega)
      constructor
      · rw [dictGet_dictSet_ne _ _ _ _ (fun he => hrid he.symm)]
        exact (hf m (by omega)).1
      · have hne : Ident.nodeGen m ≠ Ident.nodeGen (st.nextId + 1) := by
          intro he
          cases he
          omega
        rw [dictGet_dictSet_ne _ _ _ _ hne]
        exact (hf m (by omega)).2
  | createNodeRuns body t =>
    simp only [applyOp, create_node_runs]
    split
    · exact hf
    · split
      · exact hf
      · split
        · exact hf
        · intro m hm
          simp only [createBatch_counter] at hm
          constructor
          · exact (hf m (by omega)).1
          · rw [createBatch_store_old _ _ _ _ _ _ _
              (fun j hj1 hj2 he => by cases he; omega)]
            exact (hf m (by omega)).2
  | reportEval nid er =>
    simp only [applyOp, report_node_run_evaluation]
    split
    · exact hf
    · rename_i nr hcase
      intro m hm
      simp only at hm
      have hkey : nr.node_run_id = nid := hkn _ (dictGet_mem hcase)
      have hne : Ident.nodeGen m ≠ nr.node_run_id := by
        intro he
        rw [hkey] at he
        rw [← he] at hcase
        rw [(hf m hm).2] at hcase
        cases hcase
      constructor
      · exact (hf m hm).1
      · rw [dictGet_dictSet_ne _ _ _ _ hne]
        exact (hf m hm).2
  | complete nid body t =>
    simp only [applyOp, complete_node_run]
    split
    · exact hf
    · rename_i nr hcase
      intro m hm
      simp only at hm
      have hkey : nr.node_run_id = nid := hkn _ (dictGet_mem hcase)
      have hne : Ident.nodeGen m ≠ nr.node_run_id := by
        intro he
        rw [hkey] at he
        rw [← he] at hcase
        rw [(hf m hm).2] at hcase
        cases hcase
      constructor
      · exact (hf m hm).1
      · rw [dictGet_dictSet_ne _ _ _ _ hne]
        exact (hf m hm).2
  | cancel rid t =>
    simp only [applyOp, cancel_run]
    split
    · exact hf
    · rename_i run hcase
      split
      · exact hf
      · intro m hm
        simp only at hm
        have hkey : run.run_id = rid := hkr _ (dictGet_mem hcase)
        have hne : Ident.runGen m ≠ run.run_id := by
          intro he
          rw [hkey] at he
          rw [← he] at hcase
          rw [(hf m hm).1] at hcase
          cases hcase
        constructor
        · rw [dictGet_dictSet_ne _ _ _ _ hne]
          exact (hf m hm).1
        · exact (hf m hm).2

/-- Claim C1: for every `start_run` request whose run id is fresh (absent
from the run store), `start_run` returns a Run with state `running` and a
root-node-run id under which `get_node_run` finds a NodeRun with state
`queued`, null parent, the Run's own run id, and the supplied input. -/
theorem start_run_fresh_creates_run_and_root (body : RunStartBody) (t : Nat)
    (st : CoordState)
    (h : dictGet st.runs (effectiveRunId body.run_id st.nextId) = none) :
    ∃ run st', start_run body t st = (.ok run, st') ∧
      run.state = RunState.running ∧
      ∃ root, get_node_run run.root_node_run_id st' = .ok root ∧
        root.state = NodeRunState.queued ∧
        root.parent_node_run_id = none ∧
        root.run_id = run.run_id ∧
        root.inputs = body.input := by
  simp only [start_run, h]
  exact ⟨_, _, rfl, rfl, _,
    by simp only [get_node_run, dictGet_dictSet_self]; exact rfl,
    rfl, rfl, rfl, rfl⟩

/-- Witness for C1 at the concrete spec scenario. -/
theorem start_run_fresh_creates_run_and_root_witness :
    dictGet initState.runs
      (effectiveRunId sampleStartBody.run_id initState.nextId) = none ∧
    (∃ run st', start_run sampleStartBody 5 initState = (.ok run, st') ∧
      run.state = RunState.running ∧
      ∃ root, get_node_run run.root_node_run_id st' = .ok root ∧
        root.state = NodeRunState.queued ∧
        root.parent_node_run_id = none ∧
        root.run_id = run.run_id ∧
        root.inputs = sampleStartBody.input) :=
  ⟨rfl, start_run_fresh_creates_run_and_root sampleStartBody 5 initState rfl⟩

/-- Claim C7: calling `start_run` a second time with the run id of a Run
created by a first call fails with `run_already_exists` (409), and the
failure leaves the stores unchanged (the returned state is the state after
the first call). -/
theorem start_run_duplicate_run_id_conflict (b1 b2 : RunStartBody)
    (t1 t2 : Nat) (st st1 : CoordState) (run : Run)
    (h1 : start_run b1 t1 st = (.ok run, st1))
    (h2 : b2.run_id = some run.run_id) :
    ∃ e, start_run b2 t2 st1 = (.error e, st1) ∧
      e.code = "run_already_exists" ∧ e.status_code = 409 := by
  simp only [start_run] at h1
  split at h1
  · exact absurd h1 (by simp)
  · injection h1 with h1a h1b
    injection h1a with h1a
    have hne : run.run_id ≠ Ident.user "" := by
      rw [← h1a]
      exact effectiveRunId_ne_emptyUser _ _
    have heff : effectiveRunId b2.run_id st1.nextId = run.run_id := by
      rw [h2, effectiveRunId_some_of_ne _ _ hne]
    have hget : dictGet st1.runs run.run_id = some run := by
      rw [← h1b, ← h1a]
      exact dictGet_dictSet_self _ _ _
    refine ⟨runExistsErr run.run_id, ?_, rfl, rfl⟩
    simp only [start_run, heff, hget]

/-- Witness for C7: re-running the concrete spec scenario. -/
theorem start_run_duplicate_run_id_conflict_witness :
    start_run sampleStartBody 5 initState = (.ok sampleRun, sampleState) ∧
    sampleStartBody.run_id = some sampleRun.run_id ∧
    (∃ e, start_run sampleStartBody 7 sampleState = (.error e, sampleState) ∧
      e.code = "run_already_exists" ∧ e.status_code = 409) :=
  ⟨rfl, rfl,
    start_run_duplicate_run_id_conflict sampleStartBody sampleStartBody
      5 7 initState sampleState sampleRun rfl rfl⟩

/-- Claim C10: a `start_run` request whose run id is the empty string is
treated exactly like a request with no run id — a fresh generated
identifier of the form "run_<hex>" is used, and nothing is created or
looked up under the empty-string key. -/
theorem start_run_empty_run_id_generates (body : RunStartBody) (t : Nat)
    (st : CoordState) (h : body.run_id = some (Ident.user "")) :
    start_run body t st = start_run { body with run_id := none } t st ∧
    (∀ run st', start_run body t st = (.ok run, st') →
      run.run_id = Ident.runGen st.nextId ∧
      idStr run.run_id = "run_" ++ Nat.repr st.nextId ∧
      dictGet st'.runs (Ident.user "") = dictGet st.runs (Ident.user "")) := by
  have heq : effectiveRunId body.run_id st.nextId = Ident.runGen st.nextId := by
    rw [h]
    simp [effectiveRunId]
  constructor
  · simp only [start_run]
    rw [heq]
    rfl
  · intro run st' hok
    simp only [start_run, heq] at hok
    split at hok
    · exact absurd hok (by simp)
    · injection hok with hoka hokb
      injection hoka with hoka
      refine ⟨by rw [← hoka], by rw [← hoka]; rfl, ?_⟩
      rw [← hokb]
      exact dictGet_dictSet_ne _ _ _ _ (by simp)

/-- Witness for C10 at a concrete request carrying the empty string. -/
theorem start_run_empty_run_id_generates_witness :
    ({ sampleStartBody with
        run_id := some (Ident.user "") } : RunStartBody).run_id =
      some (Ident.user "") ∧
    (start_run { sampleStartBody with run_id := some (Ident.user "") } 5
        initState =
      start_run { sampleStartBody with run_id := none } 5 initState ∧
    (∀ run st',
      start_run { sampleStartBody with run_id := some (Ident.user "") } 5
          initState = (.ok run, st') →
      run.run_id = Ident.runGen initState.nextId ∧
      idStr run.run_id = "run_" ++ Nat.repr initState.nextId ∧
      dictGet st'.runs (Ident.user "") =
        dictGet initState.runs (Ident.user ""))) :=
  ⟨rfl, start_run_empty_run_id_generates
    { sampleStartBody with run_id := some (Ident.user "") } 5 initState rfl⟩

/-- Claim C2: `create_node_runs` validates in order — run exists
(`run_not_found`, 404), parent exists (`parent_node_run_not_found`, 404),
parent belongs to the requested run (`parent_node_run_mismatch`, 409) —
and every validation failure leaves the stores unchanged, so no NodeRun is
ever created by a failing call. -/
theorem create_node_runs_validation_and_frame (body : NodeRunsCreateBody)
    (t : Nat) (st : CoordState) :
    (dictGet st.runs body.run_id = none →
      create_node_runs body t st = (.error (runNotFoundErr body.run_id), st) ∧
      (runNotFoundErr body.run_id).code = "run_not_found" ∧
      (runNotFoundErr body.run_id).status_code = 404) ∧
    (∀ r, dictGet st.runs body.run_id = some r →
      dictGet st.nodeRuns body.parent_node_run_id = none →
      create_node_runs body t st =
        (.error (parentNotFoundErr body.parent_node_run_id), st) ∧
      (parentNotFoundErr body.parent_node_run_id).code =
        "parent_node_run_not_found" ∧
      (parentNotFoundErr body.parent_node_run_id).status_code = 404) ∧
    (∀ r p, dictGet st.runs body.run_id = some r →
      dictGet st.nodeRuns body.parent_node_run_id = some p →
      p.run_id ≠ body.run_id →
      create_node_runs body t st = (.error parentMismatchErr, st) ∧
      parentMismatchErr.code = "parent_node_run_mismatch" ∧
      parentMismatchErr.status_code = 409) ∧
    (∀ e st2, create_node_runs body t st = (.error e, st2) → st2 = st) := by
  refine ⟨?_, ?_, ?_, ?_⟩
  · intro h
    refine ⟨?_, rfl, rfl⟩
    simp only [create_node_runs, h]
  · intro r hr hp
    refine ⟨?_, rfl, rfl⟩
    simp only [create_node_runs, hr, hp]
  · intro r p hr hp hm
    refine ⟨?_, rfl, rfl⟩
    simp only [create_node_runs, hr, hp]
    rw [if_pos hm]
  · intro e st2 hcall
    simp only [create_node_runs] at hcall
    split at hcall
    · injection hcall with hc1 hc2
      exact hc2.symm
    · split at hcall
      · injection hcall with hc1 hc2
        exact hc2.symm
      · split at hcall
        · injection hcall with hc1 hc2
          exact hc2.symm
        · injection hcall with hc1 hc2
          exact Except.noConfusion hc1

/-- Witness for C2: a concrete call against a missing parent NodeRun. -/
theorem create_node_runs_validation_and_frame_witness :
    dictGet sampleState.runs
      ({ sampleCreateBody with
          parent_node_run_id := Ident.nodeGen 9 } : NodeRunsCreateBody).run_id
      = some sampleRun ∧
    dictGet sampleState.nodeRuns (Ident.nodeGen 9) = none ∧
    create_node_runs
        { sampleCreateBody with parent_node_run_id := Ident.nodeGen 9 } 0
        sampleState =
      (.error (parentNotFoundErr (Ident.nodeGen 9)), sampleState) :=
  ⟨rfl, rfl,
    ((create_node_runs_validation_and_frame
      { sampleCreateBody with parent_node_run_id := Ident.nodeGen 9 } 0
      sampleState).2.1 sampleRun rfl rfl).1⟩

/-- Claim C3: a `create_node_runs` request with N specs that passes
validation creates exactly N NodeRuns, returned in spec order, each with a
fresh generated id (absent from the store before the call, present after),
state `queued`, the spec's inputs, the requested parent, null outputs,
output artifacts and evaluation result, pairwise-distinct ids, and the
response carries the request's pass-through extensions. -/
theorem create_node_runs_success_batch (body : NodeRunsCreateBody) (t : Nat)
    (st : CoordState) (r : Run) (p : NodeRun)
    (hr : dictGet st.runs body.run_id = some r)
    (hp : dictGet st.nodeRuns body.parent_node_run_id = some p)
    (hm : p.run_id = body.run_id) (hf : FreshOk st) :
    ∃ ns st', create_node_runs body t st =
        (.ok { node_runs := ns, extensions := body.extensions }, st') ∧
      ns.length = body.node_runs.length ∧
      (∀ i, i < body.node_runs.length →
        ∃ nr sp, ns.get? i = some nr ∧ body.node_runs.get? i = some sp ∧
          nr.node_run_id = Ident.nodeGen (st.nextId + i) ∧
          dictGet st.nodeRuns nr.node_run_id = none ∧
          dictGet st'.nodeRuns nr.node_run_id = some nr ∧
          nr.state = NodeRunState.queued ∧ nr.inputs = sp.inputs ∧
          nr.parent_node_run_id = some body.parent_node_run_id ∧
          nr.run_id = body.run_id ∧ nr.outputs = none ∧
          nr.output_artifacts = none ∧ nr.evaluation_result = none) ∧
      (∀ i j a b, ns.get? i = some a → ns.get? j = some b → i ≠ j →
        a.node_run_id ≠ b.node_run_id) := by
  have hif : ¬p.run_id ≠ body.run_id := fun hc => hc hm
  refine ⟨(createBatch body.run_id body.parent_node_run_id body.node_runs t
      st.nodeRuns st.nextId).1,
    { runs := st.runs,
      nodeRuns := (createBatch body.run_id body.parent_node_run_id
        body.node_runs t st.nodeRuns st.nextId).2.1,
      nextId := (createBatch body.run_id body.parent_node_run_id
        body.node_runs t st.nodeRuns st.nextId).2.2 }, ?_,
    createBatch_length _ _ _ _ _ _, ?_, ?_⟩
  · simp only [create_node_runs, hr, hp]
    rw [if_neg hif]
  · intro i hi
    refine ⟨mkChildNodeRun body.run_id body.parent_node_run_id
        (body.node_runs.get ⟨i, hi⟩) t (st.nextId + i),
      body.node_runs.get ⟨i, hi⟩, ?_, List.get?_eq_get hi, rfl, ?_, ?_,
      rfl, rfl, rfl, rfl, rfl, rfl, rfl⟩
    · rw [createBatch_get?, List.get?_eq_get hi]
      rfl
    · exact (hf (st.nextId + i) (Nat.le_add_right _ _)).2
    · dsimp only [mkChildNodeRun]
      rw [createBatch_store_new _ _ _ _ _ _ _ hi, List.get?_eq_get hi]
      rfl
  · intro i j a b ha hb hij hcontra
    rw [createBatch_get?] at ha hb
    cases hgi : body.node_runs.get? i with
    | none => rw [hgi] at ha; cases ha
    | some spi =>
      cases hgj : body.node_runs.get? j with
      | none => rw [hgj] at hb; cases hb
      | some spj =>
        rw [hgi] at ha
        rw [hgj] at hb
        injection ha with ha
        injection hb with hb
        rw [← ha, ← hb] at hcontra
        simp only [mkChildNodeRun, Ident.nodeGen.injEq] at hcontra
        omega

/-- Witness for C3 at the concrete spec scenario: one child spec. -/
theorem create_node_runs_success_batch_witness :
    dictGet sampleState.runs sampleCreateBody.run_id = some sampleRun ∧
    dictGet sampleState.nodeRuns sampleCreateBody.parent_node_run_id =
      some sampleRoot ∧
    sampleRoot.run_id = sampleCreateBody.run_id ∧
    (∃ ns st', create_node_runs sampleCreateBody 9 sampleState =
        (.ok { node_runs := ns, extensions := sampleCreateBody.extensions },
          st') ∧
      ns.length = sampleCreateBody.node_runs.length ∧
      (∀ i, i < sampleCreateBody.node_runs.length →
        ∃ nr sp, ns.get? i = some nr ∧
          sampleCreateBody.node_runs.get? i = some sp ∧
          nr.node_run_id = Ident.nodeGen (sampleState.nextId + i) ∧
          dictGet sampleState.nodeRuns nr.node_run_id = none ∧
          dictGet st'.nodeRuns nr.node_run_id = some nr ∧
          nr.state = NodeRunState.queued ∧ nr.inputs = sp.inputs ∧
          nr.parent_node_run_id = some sampleCreateBody.parent_node_run_id ∧
          nr.run_id = sampleCreateBody.run_id ∧ nr.outputs = none ∧
          nr.output_artifacts = none ∧ nr.evaluation_result = none) ∧
      (∀ i j a b, ns.get? i = some a → ns.get? j = some b → i ≠ j →
        a.node_run_id ≠ b.node_run_id)) :=
  ⟨rfl, rfl, rfl,
    create_node_runs_success_batch sampleCreateBody 9 sampleState sampleRun
      sampleRoot rfl rfl rfl
      (by
        intro m hm
        simp only [sampleState] at hm
        refine ⟨?_, ?_⟩
        · simp [sampleState, dictGet]
        · simp [sampleState, dictGet]
          omega)⟩

/-- Claim C4: `complete_node_run` on an existing NodeRun sets the given
terminal state, stamps `ended_at`, and, when an error is supplied, merges
it into extensions under the reserved key `completion_error` so that every
other extension field keeps its previous value and only the reserved key
is added or replaced; with no error, extensions are left unchanged. -/
theorem complete_node_run_merges_error (nid : Ident)
    (body : NodeRunCompleteBody) (t : Nat) (st : CoordState) (nr : NodeRun)
    (h : dictGet st.nodeRuns nid = some nr) :
    ∃ updated, complete_node_run nid body t st =
        (.ok (),
          { st with nodeRuns := dictSet st.nodeRuns nr.node_run_id updated }) ∧
      updated.state = body.state ∧ updated.ended_at = some t ∧
      (body.error = none → updated.extensions = nr.extensions) ∧
      (∀ e, body.error = some e →
        ∃ fields, updated.extensions = some fields ∧
          lookupField fields "completion_error" = some (errDump e) ∧
          ∀ k, k ≠ "completion_error" →
            lookupField fields k = lookupField (nr.extensions.getD []) k) := by
  refine ⟨{ nr with
      state := body.state, outputs := body.outputs,
      output_artifacts := body.output_artifacts, ended_at := some t,
      extensions := mergeCompletionError nr.extensions body.error },
    ?_, rfl, rfl, ?_, ?_⟩
  · simp only [complete_node_run, h]
  · intro he
    rw [he]
    rfl
  · intro e he
    rw [he]
    refine ⟨_, rfl, lookupField_setField_self _ _ _, ?_⟩
    intro k hk
    rw [lookupField_setField_ne _ _ _ _ hk]
    cases nr.extensions <;> rfl

/-- Witness for C4 at the concrete spec scenario: completing a NodeRun
that already carries a "trace" extension field with a "boom" error. -/
theorem complete_node_run_merges_error_witness :
    dictGet extNodeState.nodeRuns (Ident.nodeGen 0) = some extNode ∧
    (∃ updated,
      complete_node_run (Ident.nodeGen 0)
          { state := NodeRunState.failed, outputs := none,
            output_artifacts := none, error := some boomError } 7
          extNodeState =
        (.ok (), { extNodeState with
          nodeRuns :=
            dictSet extNodeState.nodeRuns extNode.node_run_id updated }) ∧
      updated.state = NodeRunState.failed ∧ updated.ended_at = some 7 ∧
      ((some boomError : Option CompletionError) = none →
        updated.extensions = extNode.extensions) ∧
      (∀ e, (some boomError : Option CompletionError) = some e →
        ∃ fields, updated.extensions = some fields ∧
          lookupField fields "completion_error" = some (errDump e) ∧
          ∀ k, k ≠ "completion_error" →
            lookupField fields k =
              lookupField (extNode.extensions.getD []) k)) :=
  ⟨rfl, complete_node_run_merges_error (Ident.nodeGen 0)
    { state := NodeRunState.failed, outputs := none,
      output_artifacts := none, error := some boomError } 7
    extNodeState extNode rfl⟩

/-- Claim C5: `cancel_run` returns a terminal Run unchanged with the store
unchanged; cancels a running Run in place, stamping `ended_at` and
persisting; is idempotent on the store (a second application leaves the
state where the first left it, for any well-keyed store); and fails with
`run_not_found` on an absent run id. -/
theorem cancel_run_terminal_noop_running_cancels (rid : Ident) (t : Nat)
    (st : CoordState) :
    (∀ run, dictGet st.runs rid = some run → run.state.isTerminal = true →
      cancel_run rid t st = (.ok run, st)) ∧
    (∀ run, dictGet st.runs rid = some run → run.state = RunState.running →
      ∃ updated, cancel_run rid t st =
          (.ok updated,
            { st with runs := dictSet st.runs run.run_id updated }) ∧
        updated.state = RunState.canceled ∧ updated.ended_at = some t ∧
        dictGet (cancel_run rid t st).2.runs run.run_id = some updated) ∧
    (KeysOk st → ∀ t',
      (cancel_run rid t' (cancel_run rid t st).2).2 =
        (cancel_run rid t st).2) ∧
    (dictGet st.runs rid = none →
      cancel_run rid t st = (.error (runNotFoundErr rid), st) ∧
      (runNotFoundErr rid).code = "run_not_found") := by
  refine ⟨?_, ?_, ?_, ?_⟩
  · intro run hrun hterm
    simp only [cancel_run, hrun, hterm]
    rfl
  · intro run hrun hstate
    have hterm : run.state.isTerminal = false := by
      rw [hstate]
      rfl
    refine ⟨{ run with state := RunState.canceled, ended_at := some t },
      ?_, rfl, rfl, ?_⟩
    · simp only [cancel_run, hrun, hterm]
      rfl
    · simp only [cancel_run, hrun, hterm]
      exact dictGet_dictSet_self _ _ _
  · intro hk t'
    obtain ⟨hkr, _⟩ := hk
    cases hrun : dictGet st.runs rid with
    | none =>
      have h1 : (cancel_run rid t st).2 = st := by
        simp [cancel_run, hrun]
      rw [h1]
      simp [cancel_run, hrun]
    | some run =>
      cases hterm : run.state.isTerminal with
      | true =>
        have h1 : (cancel_run rid t st).2 = st := by
          simp [cancel_run, hrun, hterm]
        rw [h1]
        simp [cancel_run, hrun, hterm]
      | false =>
        have hkey : run.run_id = rid := hkr _ (dictGet_mem hrun)
        have h1 : (cancel_run rid t st).2 =
            { st with
                runs := dictSet st.runs run.run_id
                          { run with state := RunState.canceled,
                                     ended_at := some t } } := by
          simp [cancel_run, hrun, hterm]
        rw [h1]
        have hget2 : dictGet
            (dictSet st.runs run.run_id
              { run with state := RunState.canceled, ended_at := some t })
            rid = some
              { run with state := RunState.canceled, ended_at := some t } := by
          rw [hkey]
          exact dictGet_dictSet_self _ _ _
        simp [cancel_run, hget2, RunState.isTerminal]
  · intro h
    refine ⟨?_, rfl⟩
    simp only [cancel_run, h]

/-- Witness for C5: cancelling the terminal Run `doneRun`. -/
theorem cancel_run_terminal_noop_running_cancels_witness :
    dictGet doneState.runs (Ident.user "done") = some doneRun ∧
    doneRun.state.isTerminal = true ∧
    cancel_run (Ident.user "done") 11 doneState = (.ok doneRun, doneState) :=
  ⟨rfl, rfl,
    (cancel_run_terminal_noop_running_cancels (Ident.user "done") 11
      doneState).1 doneRun rfl rfl⟩

/-- Claim C6: `report_node_run_evaluation` on an existing NodeRun replaces
only `evaluation_result`, persists the update, and leaves every other
field of the NodeRun, every other store entry, and the run store exactly
as they were; on an absent id it fails with `node_run_not_found`. -/
theorem report_evaluation_updates_only_evaluation (nid : Ident)
    (er : Option JVal) (st : CoordState) :
    (∀ nr, dictGet st.nodeRuns nid = some nr →
      ∃ updated, report_node_run_evaluation nid er st =
          (.ok (),
            { st with
              nodeRuns := dictSet st.nodeRuns nr.node_run_id updated }) ∧
        updated.evaluation_result = er ∧
        updated.node_run_id = nr.node_run_id ∧
        updated.run_id = nr.run_id ∧
        updated.parent_node_run_id = nr.parent_node_run_id ∧
        updated.node_type_ref = nr.node_type_ref ∧
        updated.kind = nr.kind ∧ updated.state = nr.state ∧
        updated.created_at = nr.created_at ∧
        updated.started_at = nr.started_at ∧
        updated.ended_at = nr.ended_at ∧ updated.inputs = nr.inputs ∧
        updated.outputs = nr.outputs ∧
        updated.output_artifacts = nr.output_artifacts ∧
        updated.executor_binding = nr.executor_binding ∧
        updated.recovery_actions = nr.recovery_actions ∧
        updated.extensions = nr.extensions ∧
        dictGet (report_node_run_evaluation nid er st).2.nodeRuns
          nr.node_run_id = some updated ∧
        (∀ k, k ≠ nr.node_run_id →
          dictGet (report_node_run_evaluation nid er st).2.nodeRuns k =
            dictGet st.nodeRuns k) ∧
        (report_node_run_evaluation nid er st).2.runs = st.runs) ∧
    (dictGet st.nodeRuns nid = none →
      report_node_run_evaluation nid er st =
        (.error (nodeRunNotFoundErr nid), st) ∧
      (nodeRunNotFoundErr nid).code = "node_run_not_found") := by
  constructor
  · intro nr h
    refine ⟨{ nr with evaluation_result := er }, ?_, rfl, rfl, rfl, rfl,
      rfl, rfl, rfl, rfl, rfl, rfl, rfl, rfl, rfl, rfl, rfl, rfl, ?_, ?_, ?_⟩
    · simp only [report_node_run_evaluation, h]
    · simp only [report_node_run_evaluation, h]
      exact dictGet_dictSet_self _ _ _
    · intro k hk
      simp only [report_node_run_evaluation, h]
      exact dictGet_dictSet_ne _ _ _ _ hk
    · simp only [report_node_run_evaluation, h]
  · intro h
    refine ⟨?_, rfl⟩
    simp only [report_node_run_evaluation, h]

/-- Witness for C6: reporting an evaluation result on `extNode`. -/
theorem report_evaluation_updates_only_evaluation_witness :
    dictGet extNodeState.nodeRuns (Ident.nodeGen 0) = some extNode ∧
    (∃ updated,
      report_node_run_evaluation (Ident.nodeGen 0) (some (.str "passed"))
          extNodeState =
        (.ok (), { extNodeState with
          nodeRuns :=
            dictSet extNodeState.nodeRuns extNode.node_run_id updated }) ∧
      updated.evaluation_result = some (.str "passed") ∧
      updated.node_run_id = extNode.node_run_id ∧
      updated.run_id = extNode.run_id ∧
      updated.parent_node_run_id = extNode.parent_node_run_id ∧
      updated.node_type_ref = extNode.node_type_ref ∧
      updated.kind = extNode.kind ∧ updated.state = extNode.state ∧
      updated.created_at = extNode.created_at ∧
      updated.started_at = extNode.started_at ∧
      updated.ended_at = extNode.ended_at ∧
      updated.inputs = extNode.inputs ∧
      updated.outputs = extNode.outputs ∧
      updated.output_artifacts = extNode.output_artifacts ∧
      updated.executor_binding = extNode.executor_binding ∧
      updated.recovery_actions = extNode.recovery_actions ∧
      updated.extensions = extNode.extensions ∧
      dictGet (report_node_run_evaluation (Ident.nodeGen 0)
          (some (.str "passed")) extNodeState).2.nodeRuns
        extNode.node_run_id = some updated ∧
      (∀ k, k ≠ extNode.node_run_id →
        dictGet (report_node_run_evaluation (Ident.nodeGen 0)
            (some (.str "passed")) extNodeState).2.nodeRuns k =
          dictGet extNodeState.nodeRuns k) ∧
      (report_node_run_evaluation (Ident.nodeGen 0) (some (.str "passed"))
          extNodeState).2.runs = extNodeState.runs) :=
  ⟨rfl, (report_evaluation_updates_only_evaluation (Ident.nodeGen 0)
    (some (.str "passed")) extNodeState).1 extNode rfl⟩

/-- Claim C8: every gateway `_call` re-raises a structured downstream API
error preserving its code, message and details, defaulting the status to
502 when the downstream supplied none (and keeping a supplied non-zero
status); any other downstream failure becomes the per-service
"<service>_unavailable" error with the fixed service-naming message,
status 502, and details carrying the target base URL and the stringified
failure — for the Atomic Executor, Composite Executor, Selection and PDP
gateway clients alike. -/
theorem gateway_call_normalizes_errors (α : Type) (baseUrl : String) :
    (∀ (g : GatewayTarget) (code msg : String) (d : Option JVal),
      (∀ s : Nat, s ≠ 0 →
        gatewayCall (α := α) g (.apiError code msg (some s) d) =
          .error { code := code, message := msg, status_code := s,
                   details := d }) ∧
      gatewayCall (α := α) g (.apiError code msg none d) =
        .error { code := code, message := msg, status_code := 502,
                 details := d }) ∧
    (∀ desc : String,
      gatewayCall (α := α) (atomicExecutorTarget baseUrl) (.failure desc) =
        .error { code := "atomic_executor_unavailable",
                 message := "Atomic Executor request failed",
                 status_code := 502,
                 details := some (.obj [("atomic_executor_url", .str baseUrl),
                   ("error", .str desc)]) } ∧
      gatewayCall (α := α) (compositeExecutorTarget baseUrl)
          (.failure desc) =
        .error { code := "composite_executor_unavailable",
                 message := "Composite Executor request failed",
                 status_code := 502,
                 details := some (.obj
                   [("composite_executor_url", .str baseUrl),
                    ("error", .str desc)]) } ∧
      gatewayCall (α := α) (selectionTarget baseUrl) (.failure desc) =
        .error { code := "selection_service_unavailable",
                 message := "Selection Service request failed",
                 status_code := 502,
                 details := some (.obj
                   [("selection_service_url", .str baseUrl),
                    ("error", .str desc)]) } ∧
      gatewayCall (α := α) (pdpTarget baseUrl) (.failure desc) =
        .error { code := "pdp_unavailable",
                 message := "PDP request failed",
                 status_code := 502,
                 details := some (.obj [("pdp_url", .str baseUrl),
                   ("error", .str desc)]) }) := by
  refine ⟨fun g code msg d => ⟨fun s hs => ?_, rfl⟩,
    fun desc => ⟨rfl, rfl, rfl, rfl⟩⟩
  simp only [gatewayCall, statusOr, if_neg hs]

/-- Witness for C8 at a concrete supplied status. -/
theorem gateway_call_normalizes_errors_witness :
    (404 : Nat) ≠ 0 ∧
    gatewayCall (α := Unit) (selectionTarget "http://sel")
        (.apiError "no_candidates" "none left" (some 404) none) =
      .error { code := "no_candidates", message := "none left",
               status_code := 404, details := none } :=
  ⟨by decide,
    ((gateway_call_normalizes_errors Unit "http://sel").1
      (selectionTarget "http://sel") "no_candidates" "none left" none).1
      404 (by decide)⟩

/-- Claim C9: in every well-keyed state, once a Run is terminal no
coordinator operation changes its stored record again (state and
`ended_at` included); moreover `create_node_runs`,
`report_node_run_evaluation` and `complete_node_run` never touch the run
store at all, and `start_run` never overwrites any existing Run, terminal
or not — cancellation is the only Run-level update and it absorbs
terminal Runs as a no-op. -/
theorem terminal_run_state_frozen (st : CoordState) (hk : KeysOk st) :
    (∀ op rid run, dictGet st.runs rid = some run →
      run.state.isTerminal = true →
      dictGet (applyOp op st).runs rid = some run) ∧
    (∀ body t rid run, dictGet st.runs rid = some run →
      dictGet (start_run body t st).2.runs rid = some run) ∧
    (∀ body t, (create_node_runs body t st).2.runs = st.runs) ∧
    (∀ nid er, (report_node_run_evaluation nid er st).2.runs = st.runs) ∧
    (∀ nid body t, (complete_node_run nid body t st).2.runs = st.runs) := by
  obtain ⟨hkr, _⟩ := hk
  have hstart : ∀ body t rid run, dictGet st.runs rid = some run →
      dictGet (start_run body t st).2.runs rid = some run := by
    intro body t rid run h
    simp only [start_run]
    cases hc : dictGet st.runs (effectiveRunId body.run_id st.nextId) with
    | some r =>
      simp only [hc]
      exact h
    | none =>
      simp only [hc]
      have hne : rid ≠ effectiveRunId body.run_id st.nextId := by
        intro he
        rw [← he, h] at hc
        cases hc
      rw [dictGet_dictSet_ne _ _ _ _ hne]
      exact h
  have hcreate : ∀ body t,
      (create_node_runs body t st).2.runs = st.runs := by
    intro body t
    simp only [create_node_runs]
    split
    · rfl
    · split
      · rfl
      · split
        · rfl
        · rfl
  have hreport : ∀ nid er,
      (report_node_run_evaluation nid er st).2.runs = st.runs := by
    intro nid er
    simp only [report_node_run_evaluation]
    split
    · rfl
    · rfl
  have hcomplete : ∀ nid body t,
      (complete_node_run nid body t st).2.runs = st.runs := by
    intro nid body t
    simp only [complete_node_run]
    split
    · rfl
    · rfl
  refine ⟨?_, hstart, hcreate, hreport, hcomplete⟩
  intro op rid run h hterm
  cases op with
  | startRun body t => exact hstart body t rid run h
  | createNodeRuns body t =>
    show dictGet (create_node_runs body t st).2.runs rid = some run
    rw [hcreate]
    exact h
  | reportEval nid er =>
    show dictGet (report_node_run_evaluation nid er st).2.runs rid = some run
    rw [hreport]
    exact h
  | complete nid body t =>
    show dictGet (complete_node_run nid body t st).2.runs rid = some run
    rw [hcomplete]
    exact h
  | cancel rid2 t =>
    show dictGet (cancel_run rid2 t st).2.runs rid = some run
    simp only [cancel_run]
    cases hc : dictGet st.runs rid2 with
    | none =>
      simp only [hc]
      exact h
    | some run2 =>
      simp only [hc]
      cases hterm2 : run2.state.isTerminal with
      | true =>
        simp only [hterm2]
        exact h
      | false =>
        have hkey2 : run2.run_id = rid2 := hkr _ (dictGet_mem hc)
        by_cases heq2 : rid = rid2
        · rw [heq2, hc] at h
          injection h with h
          rw [h] at hterm2
          rw [hterm2] at hterm
          cases hterm
        · show dictGet (dictSet st.runs run2.run_id _) rid = some run
          rw [dictGet_dictSet_ne _ _ _ _ (by rw [hkey2]; exact heq2)]
          exact h

/-- Witness for C9: cancelling on a store holding the terminal `doneRun`
leaves its record intact. -/
theorem terminal_run_state_frozen_witness :
    KeysOk doneState ∧
    dictGet (applyOp (CoordOp.cancel (Ident.user "done") 9) doneState).runs
      (Ident.user "done") = some doneRun :=
  ⟨by decide,
    (terminal_run_state_frozen doneState (by decide)).1
      (CoordOp.cancel (Ident.user "done") 9) (Ident.user "done") doneRun
      rfl rfl⟩
